import Mathlib

/-!
A shallow embedding of the CHIP-8 interpreter core of the fish_n_chips
repository (src/hardware/cpu.rs, memory.rs, keyboard.rs), together with
theorems settling the specification claims.

Machine integers are embedded as `Nat` with explicit `% 256` / `% 65536`
where the source wraps (u8 / u16 casts and wrapping ops); the fixed-size
arrays of the source (registers, memory bytes, display grid, call stack)
are embedded as total functions out of `Nat`, with the source's bound
checks made explicit where they exist (call-stack push/pop and keyboard
indexing, whose out-of-bounds accesses panic in the source, return
`Option` here, `none` standing for the abort).
-/

namespace FishNChips

/-- mod.rs: `const RAM_SIZE: usize = 4096;` -/
def RAM_SIZE : Nat := 4096

/-- mod.rs: `const DISPLAY_HEIGHT: usize = 32;` -/
def DISPLAY_HEIGHT : Nat := 32

/-- mod.rs: `const DISPLAY_WIDTH: usize = 64;` -/
def DISPLAY_WIDTH : Nat := 64

/-- cpu.rs: `const STACK_SIZE: usize = 16;` -/
def STACK_SIZE : Nat := 16

/-- cpu.rs: `const PROGRAM_START_ADDRESS: usize = 0x200;` -/
def PROGRAM_START_ADDRESS : Nat := 0x200

/-- cpu.rs: `const OPCODE_SIZE: usize = 2;` -/
def OPCODE_SIZE : Nat := 2

/-- memory.rs `Display`: the 64x32 grid of u8 cells, embedded as a total
function from (x, y) to the cell value.  The interpreter only ever indexes
it with x already reduced mod 64 and y mod 32. -/
abbrev Disp := Nat → Nat → Nat

/-- memory.rs `Display::new`: every cell 0. -/
def Display.new : Disp := fun _ _ => 0

/-- memory.rs `Display::clear`: every cell set back to 0. -/
def Display.clear (_d : Disp) : Disp := fun _ _ => 0

/-- memory.rs `Memory`: 4096 bytes plus the display, bytes embedded as a
total function from address to value. -/
structure Mem where
  memory : Nat → Nat
  display : Disp

/-- memory.rs `Memory::load`, after the file has been read into `buffer`:
if the buffer is larger than `RAM_SIZE - 0x200` it returns an error
(second component `false`) without touching memory; otherwise it copies
the buffer into addresses 0x200 .. 0x200 + len and returns Ok (`true`).
The file-system half of the source function (File::open / read_to_end) is
external I/O outside this embedding; the size check and the copy are
embedded exactly. -/
def Memory.load (memory : Nat → Nat) (buffer : List Nat) : (Nat → Nat) × Bool :=
  let len_memory := RAM_SIZE
  let len_buffer := buffer.length
  if len_memory - 0x200 < len_buffer then
    (memory, false)
  else
    ((fun a => if 0x200 ≤ a ∧ a < len_buffer + 0x200 then buffer.getD (a - 0x200) 0
               else memory a),
     true)

/-- keyboard.rs `Keyboard`: `[u8; 16]`, entry 1 = pressed.  Embedded as a
list so that the source's panicking index is an `Option` lookup. -/
abbrev Keyboard := List Nat

/-- cpu.rs `Stack`: 16-slot array plus stack pointer. -/
structure Stack where
  stack : Nat → Nat
  stack_pointer : Nat

/-- cpu.rs `Stack::new`. -/
def Stack.new : Stack := { stack := fun _ => 0, stack_pointer := 0 }

/-- cpu.rs `Stack::top`: reads the slot at the stack pointer. -/
def Stack.top (s : Stack) : Nat := s.stack s.stack_pointer

/-- cpu.rs `Stack::push`: panics (here `none`) when the pointer has
reached STACK_SIZE, otherwise stores and increments. -/
def Stack.push (s : Stack) (address : Nat) : Option Stack :=
  if STACK_SIZE ≤ s.stack_pointer then none
  else some { stack := fun j => if j = s.stack_pointer then address else s.stack j,
              stack_pointer := s.stack_pointer + 1 }

/-- cpu.rs `Stack::pop`: panics (here `none`) when empty, otherwise
decrements and returns `top` of the decremented stack. -/
def Stack.pop (s : Stack) : Option (Nat × Stack) :=
  if s.stack_pointer = 0 then none
  else
    let s' : Stack := { s with stack_pointer := s.stack_pointer - 1 }
    some (s'.top, s')

/-- cpu.rs `ProgramCounter`: the three-way next-pc action. -/
inductive Pc where
  | NEXT
  | SKIP
  | JUMP (address : Nat)
deriving DecidableEq

/-- cpu.rs `ProgramCounter::skip_if`. -/
def Pc.skip_if (condition : Bool) : Pc :=
  match condition with
  | true => Pc.SKIP
  | false => Pc.NEXT

/-- cpu.rs `Cpu`: registers as a total function (indices 0..15 used),
u16 index register, u8 timers, pc, stack, latched opcode, input-wait
latch and the exposed beeping flag. -/
structure Cpu where
  v_registers : Nat → Nat
  i_register : Nat
  delay_timer_register : Nat
  sound_timer_register : Nat
  pc : Nat
  stack : Stack
  opcode : Nat
  waiting_for_input : Bool
  input_register : Nat
  beeping : Bool

/-- cpu.rs `Cpu::new`. -/
def Cpu.new : Cpu :=
  { v_registers := fun _ => 0
    i_register := 0
    delay_timer_register := 0
    sound_timer_register := 0
    pc := PROGRAM_START_ADDRESS
    stack := Stack.new
    opcode := 0
    waiting_for_input := false
    input_register := 0
    beeping := false }

/-- Write register `i` (the embedding of `self.v_registers[i] = a`). -/
def setV (c : Cpu) (i a : Nat) : Cpu :=
  { c with v_registers := fun j => if j = i then a else c.v_registers j }

/-- cpu.rs: applying a `ProgramCounter` action to the cpu, i.e. the match
at the end of `execute_opcode`. -/
def applyPc (c : Cpu) (p : Pc) : Cpu :=
  match p with
  | Pc.NEXT => { c with pc := c.pc + OPCODE_SIZE }
  | Pc.SKIP => { c with pc := c.pc + OPCODE_SIZE * 2 }
  | Pc.JUMP address => { c with pc := address }

/-- cpu.rs `Cpu::fetch_opcode`: big-endian combination of the two bytes
at pc. -/
def fetch_opcode (c : Cpu) (m : Mem) : Cpu :=
  { c with opcode := ((m.memory c.pc) <<< 8) ||| m.memory (c.pc + 1) }

/-- cpu.rs `Cpu::update_timers`: when not awaiting a key, decrement each
nonzero timer by one and return Ok (`true`); when awaiting, do nothing
and return Err (`false`). -/
def update_timers (c : Cpu) : Cpu × Bool :=
  if c.waiting_for_input = false then
    let c := if 0 < c.delay_timer_register then
               { c with delay_timer_register := c.delay_timer_register - 1 } else c
    let c := if 0 < c.sound_timer_register then
               { c with sound_timer_register := c.sound_timer_register - 1 } else c
    (c, true)
  else
    (c, false)

/- ------------------------------------------------------------------ -/
/- Opcode handlers (cpu.rs), in source order.                          -/
/- ------------------------------------------------------------------ -/

/-- cpu.rs `op_00e0` (CLS). -/
def op_00e0 (_c : Cpu) (display : Disp) : Disp × Pc :=
  (Display.clear display, Pc.NEXT)

/-- cpu.rs `op_00ee` (RET): pop into the program counter. -/
def op_00ee (c : Cpu) : Option (Cpu × Pc) :=
  (c.stack.pop).map fun r => ({ c with stack := r.2 }, Pc.JUMP r.1)

/-- cpu.rs `op_1nnn` (JP addr). -/
def op_1nnn (_c : Cpu) (nnn : Nat) : Pc := Pc.JUMP nnn

/-- cpu.rs `op_2nnn` (CALL addr): push (pc + 2) as u16, jump to nnn. -/
def op_2nnn (c : Cpu) (nnn : Nat) : Option (Cpu × Pc) :=
  (c.stack.push ((c.pc + OPCODE_SIZE) % 65536)).map fun s =>
    ({ c with stack := s }, Pc.JUMP nnn)

/-- cpu.rs `op_3xkk` (SE Vx, byte). -/
def op_3xkk (c : Cpu) (x kk : Nat) : Pc :=
  Pc.skip_if (c.v_registers x == kk)

/-- cpu.rs `op_4xkk` (SNE Vx, byte). -/
def op_4xkk (c : Cpu) (x kk : Nat) : Pc :=
  Pc.skip_if (c.v_registers x != kk)

/-- cpu.rs `op_5xy0` (SE Vx, Vy). -/
def op_5xy0 (c : Cpu) (x y : Nat) : Pc :=
  Pc.skip_if (c.v_registers x == c.v_registers y)

/-- cpu.rs `op_6xkk` (LD Vx, byte). -/
def op_6xkk (c : Cpu) (x kk : Nat) : Cpu × Pc :=
  (setV c x kk, Pc.NEXT)

/-- cpu.rs `op_7xkk` (ADD Vx, byte): wrapping u8 add. -/
def op_7xkk (c : Cpu) (x kk : Nat) : Cpu × Pc :=
  (setV c x ((c.v_registers x + kk) % 256), Pc.NEXT)

/-- cpu.rs `op_8xy0` (LD Vx, Vy). -/
def op_8xy0 (c : Cpu) (x y : Nat) : Cpu × Pc :=
  (setV c x (c.v_registers y), Pc.NEXT)

/-- cpu.rs `op_8xy1` (OR Vx, Vy). -/
def op_8xy1 (c : Cpu) (x y : Nat) : Cpu × Pc :=
  (setV c x (c.v_registers x ||| c.v_registers y), Pc.NEXT)

/-- cpu.rs `op_8xy2` (AND Vx, Vy). -/
def op_8xy2 (c : Cpu) (x y : Nat) : Cpu × Pc :=
  (setV c x (c.v_registers x &&& c.v_registers y), Pc.NEXT)

/-- cpu.rs `op_8xy3` (XOR Vx, Vy). -/
def op_8xy3 (c : Cpu) (x y : Nat) : Cpu × Pc :=
  (setV c x (c.v_registers x ^^^ c.v_registers y), Pc.NEXT)

/-- cpu.rs `op_8xy4` (ADD Vx, Vy with carry): both operands are read
(widened to u16) before VF is written, then `vx as u8` is stored. -/
def op_8xy4 (c : Cpu) (x y : Nat) : Cpu × Pc :=
  let vx := c.v_registers x
  let vy := c.v_registers y
  let vx := vx + vy
  let c := setV c 15 (if 255 < vx then 1 else 0)
  (setV c x (vx % 256), Pc.NEXT)

/-- cpu.rs `op_8xy5` (SUB Vx, Vy): VF is written first, then the
wrapping subtraction re-reads both registers. -/
def op_8xy5 (c : Cpu) (x y : Nat) : Cpu × Pc :=
  let c := setV c 15 (if c.v_registers y < c.v_registers x then 1 else 0)
  (setV c x ((c.v_registers x + 256 - c.v_registers y % 256) % 256), Pc.NEXT)

/-- cpu.rs `op_8xy6` (SHR Vx): VF gets the lsb, then Vx is re-read and
shifted. -/
def op_8xy6 (c : Cpu) (x _y : Nat) : Cpu × Pc :=
  let c := setV c 15 (c.v_registers x &&& 1)
  (setV c x (c.v_registers x >>> 1), Pc.NEXT)

/-- cpu.rs `op_8xy7` (SUBN Vx, Vy): as written in the source, VF is set
from `v[x] > v[y]` (the source comment says NOT borrow, i.e. Vy > Vx),
then the wrapping `Vy - Vx` re-reads both registers. -/
def op_8xy7 (c : Cpu) (x y : Nat) : Cpu × Pc :=
  let c := setV c 15 (if c.v_registers y < c.v_registers x then 1 else 0)
  (setV c x ((c.v_registers y + 256 - c.v_registers x % 256) % 256), Pc.NEXT)

/-- cpu.rs `op_8xye` (SHL Vx): VF gets the msb, then Vx is re-read,
shifted left and truncated to 8 bits. -/
def op_8xye (c : Cpu) (x _y : Nat) : Cpu × Pc :=
  let c := setV c 15 ((c.v_registers x &&& 128) >>> 7)
  (setV c x ((c.v_registers x <<< 1) % 256), Pc.NEXT)

/-- cpu.rs `op_9xy0` (SNE Vx, Vy). -/
def op_9xy0 (c : Cpu) (x y : Nat) : Pc :=
  Pc.skip_if (c.v_registers x != c.v_registers y)

/-- cpu.rs `op_annn` (LD I, addr). -/
def op_annn (c : Cpu) (nnn : Nat) : Cpu × Pc :=
  ({ c with i_register := nnn }, Pc.NEXT)

/-- cpu.rs `op_bnnn` (JP V0, addr). -/
def op_bnnn (c : Cpu) (nnn : Nat) : Pc :=
  Pc.JUMP (nnn + c.v_registers 0)

/-- cpu.rs `op_cxkk` (RND Vx, byte): the random byte drawn from the
thread rng is an explicit oracle argument here. -/
def op_cxkk (c : Cpu) (x kk rand : Nat) : Cpu × Pc :=
  (setV c x (rand &&& kk), Pc.NEXT)

/-- cpu.rs `op_dxyn`, innermost loop body (one bit of one sprite row):
x position from the current Vx (re-read each iteration) wrapped mod
width, the sprite bit extracted from memory at I + byte, VF or-ed with
(pixel AND old cell), then the cell xor-ed with the pixel. -/
def drawBit (mm : Nat → Nat) (x ypos byte : Nat) (s : Cpu × Disp) (bit : Nat) :
    Cpu × Disp :=
  let c := s.1
  let d := s.2
  let xpos := ((c.v_registers x + bit) % 256) % DISPLAY_WIDTH
  let pixel := (mm (c.i_register + byte) >>> (7 - bit)) &&& 1
  let c := setV c 15 (c.v_registers 15 ||| (pixel &&& d xpos ypos))
  (c, fun a b => if a = xpos ∧ b = ypos then d a b ^^^ pixel else d a b)

/-- cpu.rs `op_dxyn`, one sprite row: y position from the current Vy
(read once per row) wrapped mod height, then the eight bits. -/
def drawByte (mm : Nat → Nat) (x y : Nat) (s : Cpu × Disp) (byte : Nat) :
    Cpu × Disp :=
  let ypos := ((s.1.v_registers y + byte) % 256) % DISPLAY_HEIGHT
  (List.range 8).foldl (drawBit mm x ypos byte) s

/-- cpu.rs `op_dxyn` (DRW Vx, Vy, nibble): VF := 0, then the n sprite
rows are xor-plotted with collision accumulation into VF. -/
def op_dxyn (c : Cpu) (x y n : Nat) (m : Mem) : (Cpu × Mem) × Pc :=
  let c := setV c 15 0
  let r := (List.range n).foldl (drawByte m.memory x y) (c, m.display)
  ((r.1, { m with display := r.2 }), Pc.NEXT)

/-- cpu.rs `op_ex9e` (SKP Vx): the keyboard array is indexed with the
full value of Vx; an out-of-range index panics in the source (`none`
here). -/
def op_ex9e (c : Cpu) (x : Nat) (keyboard : Keyboard) : Option Pc :=
  (keyboard.get? (c.v_registers x)).map fun k => Pc.skip_if (k == 1)

/-- cpu.rs `op_exa1` (SKNP Vx): same unchecked indexing. -/
def op_exa1 (c : Cpu) (x : Nat) (keyboard : Keyboard) : Option Pc :=
  (keyboard.get? (c.v_registers x)).map fun k => Pc.skip_if (k == 0)

/-- cpu.rs `op_fx07` (LD Vx, DT). -/
def op_fx07 (c : Cpu) (x : Nat) : Cpu × Pc :=
  (setV c x c.delay_timer_register, Pc.NEXT)

/-- cpu.rs `op_fx0a` (LD Vx, K): set the input-wait latch; pc still
advances (NEXT), the wait is enforced at the next cycle. -/
def op_fx0a (c : Cpu) (x : Nat) : Cpu × Pc :=
  ({ c with waiting_for_input := true, input_register := x }, Pc.NEXT)

/-- cpu.rs `op_fx15` (LD DT, Vx). -/
def op_fx15 (c : Cpu) (x : Nat) : Cpu × Pc :=
  ({ c with delay_timer_register := c.v_registers x }, Pc.NEXT)

/-- cpu.rs `op_fx18` (LD ST, Vx). -/
def op_fx18 (c : Cpu) (x : Nat) : Cpu × Pc :=
  ({ c with sound_timer_register := c.v_registers x }, Pc.NEXT)

/-- cpu.rs `op_fx1e` (ADD I, Vx): u16 addition. -/
def op_fx1e (c : Cpu) (x : Nat) : Cpu × Pc :=
  ({ c with i_register := (c.i_register + c.v_registers x) % 65536 }, Pc.NEXT)

/-- cpu.rs `op_fx29` (LD F, Vx): I := Vx * 5. -/
def op_fx29 (c : Cpu) (x : Nat) : Cpu × Pc :=
  ({ c with i_register := (c.v_registers x * 5) % 65536 }, Pc.NEXT)

/-- Write one memory byte (embedding of `memory[a] = b`). -/
def setMem (m : Mem) (a b : Nat) : Mem :=
  { m with memory := fun j => if j = a then b else m.memory j }

/-- cpu.rs `op_fx33` (LD B, Vx): BCD digits at I, I+1, I+2. -/
def op_fx33 (c : Cpu) (x : Nat) (m : Mem) : Mem × Pc :=
  let m := setMem m c.i_register (c.v_registers x / 100)
  let m := setMem m (c.i_register + 1) (c.v_registers x % 100 / 10)
  let m := setMem m (c.i_register + 2) (c.v_registers x % 10)
  (m, Pc.NEXT)

/-- cpu.rs `op_fx55` (LD [I], Vx): memory[I + index] := V index for
index in 0 ..= x. -/
def op_fx55 (c : Cpu) (x : Nat) (m : Mem) : Mem × Pc :=
  ((List.range (x + 1)).foldl
    (fun m index => setMem m (c.i_register + index) (c.v_registers index)) m,
   Pc.NEXT)

/-- cpu.rs `op_fx65` (LD Vx, [I]): V index := memory[I + index] for
index in 0 ..= x. -/
def op_fx65 (c : Cpu) (x : Nat) (m : Mem) : Cpu × Pc :=
  ((List.range (x + 1)).foldl
    (fun c index => setV c index (m.memory (c.i_register + index))) c,
   Pc.NEXT)

/-- The 0x0 op-family of the dispatch (00E0, 00EE, otherwise the
unmatched-opcode no-op). -/
def dispatch0 (c : Cpu) (m : Mem) (s2 s3 s4 : Nat) : Option ((Cpu × Mem) × Pc) :=
  if s2 = 0x0 ∧ s3 = 0xE ∧ s4 = 0x0 then
    some ((c, { m with display := (op_00e0 c m.display).1 }),
          (op_00e0 c m.display).2)
  else if s2 = 0x0 ∧ s3 = 0xE ∧ s4 = 0xE then
    (op_00ee c).map fun r => ((r.1, m), r.2)
  else some ((c, m), Pc.NEXT)

/-- The 0x8 op-family of the dispatch, keyed by the trailing nibble. -/
def dispatch8 (c : Cpu) (m : Mem) (x y s4 : Nat) : Option ((Cpu × Mem) × Pc) :=
  if s4 = 0x0 then some (((op_8xy0 c x y).1, m), (op_8xy0 c x y).2)
  else if s4 = 0x1 then some (((op_8xy1 c x y).1, m), (op_8xy1 c x y).2)
  else if s4 = 0x2 then some (((op_8xy2 c x y).1, m), (op_8xy2 c x y).2)
  else if s4 = 0x3 then some (((op_8xy3 c x y).1, m), (op_8xy3 c x y).2)
  else if s4 = 0x4 then some (((op_8xy4 c x y).1, m), (op_8xy4 c x y).2)
  else if s4 = 0x5 then some (((op_8xy5 c x y).1, m), (op_8xy5 c x y).2)
  else if s4 = 0x6 then some (((op_8xy6 c x y).1, m), (op_8xy6 c x y).2)
  else if s4 = 0x7 then some (((op_8xy7 c x y).1, m), (op_8xy7 c x y).2)
  else if s4 = 0xE then some (((op_8xye c x y).1, m), (op_8xye c x y).2)
  else some ((c, m), Pc.NEXT)

/-- The 0xE op-family of the dispatch (Ex9E, ExA1). -/
def dispatchE (c : Cpu) (m : Mem) (keyboard : Keyboard) (x s3 s4 : Nat) :
    Option ((Cpu × Mem) × Pc) :=
  if s3 = 0x9 ∧ s4 = 0xE then (op_ex9e c x keyboard).map fun p => ((c, m), p)
  else if s3 = 0xA ∧ s4 = 0x1 then (op_exa1 c x keyboard).map fun p => ((c, m), p)
  else some ((c, m), Pc.NEXT)

/-- The 0xF op-family of the dispatch, keyed by the two low nibbles. -/
def dispatchF (c : Cpu) (m : Mem) (x s3 s4 : Nat) : Option ((Cpu × Mem) × Pc) :=
  if s3 = 0x0 ∧ s4 = 0x7 then some (((op_fx07 c x).1, m), (op_fx07 c x).2)
  else if s3 = 0x0 ∧ s4 = 0xA then some (((op_fx0a c x).1, m), (op_fx0a c x).2)
  else if s3 = 0x1 ∧ s4 = 0x5 then some (((op_fx15 c x).1, m), (op_fx15 c x).2)
  else if s3 = 0x1 ∧ s4 = 0x8 then some (((op_fx18 c x).1, m), (op_fx18 c x).2)
  else if s3 = 0x1 ∧ s4 = 0xE then some (((op_fx1e c x).1, m), (op_fx1e c x).2)
  else if s3 = 0x2 ∧ s4 = 0x9 then some (((op_fx29 c x).1, m), (op_fx29 c x).2)
  else if s3 = 0x3 ∧ s4 = 0x3 then some ((c, (op_fx33 c x m).1), (op_fx33 c x m).2)
  else if s3 = 0x5 ∧ s4 = 0x5 then some ((c, (op_fx55 c x m).1), (op_fx55 c x m).2)
  else if s3 = 0x6 ∧ s4 = 0x5 then some (((op_fx65 c x m).1, m), (op_fx65 c x m).2)
  else some ((c, m), Pc.NEXT)

/-- The upper half (leading nibble 0x8 - 0xF) of the dispatch chain. -/
def execDispatchHigh (rand : Nat) (c : Cpu) (m : Mem) (keyboard : Keyboard)
    (s1 s3 s4 nnn kk x y n : Nat) : Option ((Cpu × Mem) × Pc) :=
  if s1 = 0x8 then dispatch8 c m x y s4
  else if s1 = 0x9 then
    (if s4 = 0x0 then some ((c, m), op_9xy0 c x y) else some ((c, m), Pc.NEXT))
  else if s1 = 0xA then some (((op_annn c nnn).1, m), (op_annn c nnn).2)
  else if s1 = 0xB then some ((c, m), op_bnnn c nnn)
  else if s1 = 0xC then
    some (((op_cxkk c x kk rand).1, m), (op_cxkk c x kk rand).2)
  else if s1 = 0xD then some (op_dxyn c x y n m)
  else if s1 = 0xE then dispatchE c m keyboard x s3 s4
  else if s1 = 0xF then dispatchF c m x s3 s4
  else some ((c, m), Pc.NEXT)

/-- cpu.rs `execute_opcode`, the dispatch over the decoded nibbles
(s1, s2, s3, s4) and derived operands (nnn, kk, x, y, n): the source
match is embedded as an if-chain in the source's arm order (grouped by
the leading nibble), which preserves its most-specific-pattern-first
semantics.  `none` is a source panic (stack overflow / underflow /
keyboard index out of bounds). -/
def execDispatch (rand : Nat) (c : Cpu) (m : Mem) (keyboard : Keyboard)
    (s1 s2 s3 s4 nnn kk x y n : Nat) : Option ((Cpu × Mem) × Pc) :=
  if s1 = 0x0 then dispatch0 c m s2 s3 s4
  else if s1 = 0x1 then some ((c, m), op_1nnn c nnn)
  else if s1 = 0x2 then (op_2nnn c nnn).map fun r => ((r.1, m), r.2)
  else if s1 = 0x3 then some ((c, m), op_3xkk c x kk)
  else if s1 = 0x4 then some ((c, m), op_4xkk c x kk)
  else if s1 = 0x5 then
    (if s4 = 0x0 then some ((c, m), op_5xy0 c x y) else some ((c, m), Pc.NEXT))
  else if s1 = 0x6 then some (((op_6xkk c x kk).1, m), (op_6xkk c x kk).2)
  else if s1 = 0x7 then some (((op_7xkk c x kk).1, m), (op_7xkk c x kk).2)
  else execDispatchHigh rand c m keyboard s1 s3 s4 nnn kk x y n

/-- cpu.rs `execute_opcode`: split the latched opcode into nibbles,
dispatch, then apply the returned program-counter action. -/
def execute_opcode (rand : Nat) (c : Cpu) (m : Mem) (keyboard : Keyboard) :
    Option (Cpu × Mem) :=
  let o := c.opcode
  let s1 := (o &&& 0xF000) >>> 12
  let s2 := (o &&& 0x0F00) >>> 8
  let s3 := (o &&& 0x00F0) >>> 4
  let s4 := o &&& 0x000F
  let nnn := o &&& 0x0FFF
  let kk := o &&& 0x00FF
  let x := s2
  let y := s3
  let n := s4
  match execDispatch rand c m keyboard s1 s2 s3 s4 nnn kk x y n with
  | none => none
  | some (r, p) => some (applyPc r.1 p, r.2)

/-- cpu.rs `do_cycle`, the wake-up assignment: clear the latch and store
the position of the first keyboard entry equal to 1 into the latched
target register. -/
def wake_from_input (c : Cpu) (keyboard : Keyboard) : Cpu :=
  { setV c c.input_register (keyboard.findIdx (fun k => k == 1)) with
    waiting_for_input := false }

/-- cpu.rs `do_cycle`: if awaiting a key and some key is pressed, wake;
then, if not awaiting, fetch and execute one instruction and refresh the
beeping flag from the sound timer. -/
def do_cycle (rand : Nat) (c : Cpu) (m : Mem) (keyboard : Keyboard) :
    Option (Cpu × Mem) :=
  let c := if c.waiting_for_input = true ∧ keyboard.any (fun k => k == 1) = true
           then wake_from_input c keyboard else c
  if c.waiting_for_input = true then some (c, m)
  else
    let c := fetch_opcode c m
    match execute_opcode rand c m keyboard with
    | none => none
    | some (c2, m2) =>
        some ((if 0 < c2.sound_timer_register
               then { c2 with beeping := true }
               else { c2 with beeping := false }), m2)

/- ------------------------------------------------------------------ -/
/- Concrete states used by counterexamples and witnesses.              -/
/- ------------------------------------------------------------------ -/

/-- A memory with all bytes 0 and a blank display. -/
def memW : Mem := { memory := fun _ => 0, display := fun _ _ => 0 }

/-- A cpu with V4 = 4 and V5 = 5 (operands for an 8457 instruction). -/
def cpuC1 : Cpu :=
  { Cpu.new with v_registers := fun j => if j = 4 then 4 else if j = 5 then 5 else 0 }

/-- A cpu with sound timer 1 and the beeping flag set (as a cycle that
just ran with ST = 1 leaves it). -/
def cpuC2 : Cpu := { Cpu.new with sound_timer_register := 1, beeping := true }

/-- A cpu with every register 200 (operands for an 8F04 instruction). -/
def cpuC3 : Cpu := { Cpu.new with v_registers := fun _ => 200 }

/-- A cpu with delay timer 3 (and sound timer 0). -/
def cpuC6 : Cpu := { Cpu.new with delay_timer_register := 3 }

/-- A cpu awaiting a key with target register 3. -/
def cpuC5 : Cpu := { Cpu.new with waiting_for_input := true, input_register := 3 }

/-- A keyboard whose lowest-indexed pressed key is 2. -/
def kbC5 : Keyboard := [0, 0, 1, 0, 0, 0, 0, 0, 0, 0, 0, 0, 0, 0, 0, 1]

/-- A cpu whose every register holds 20 (an out-of-range key index). -/
def cpuC10 : Cpu := { Cpu.new with v_registers := fun _ => 20 }

/-- Memory whose every byte is the sprite row 0xC0 (two leading set
bits), with a blank display. -/
def memC8 : Mem := { memory := fun _ => 192, display := fun _ _ => 0 }

/- ------------------------------------------------------------------ -/
/- C1                                                                  -/
/- ------------------------------------------------------------------ -/

/-- C1: executing opcode 8xy7 with Vx = 4 and Vy = 5 leaves VF = 0,
although Vy > Vx: the source computes VF from `v[x] > v[y]`, the reverse
of the NOT-borrow convention its own comment (and the spec) state.  The
Vx result (Vy - Vx) mod 256 = 1 and the NEXT pc action do match the
claim. -/
theorem op_8xy7_flag_reversed :
    ((op_8xy7 cpuC1 4 5).1).v_registers 15 = 0 ∧
    ((op_8xy7 cpuC1 4 5).1).v_registers 4 = 1 ∧
    (op_8xy7 cpuC1 4 5).2 = Pc.NEXT := by
  decide

/- ------------------------------------------------------------------ -/
/- C6                                                                  -/
/- ------------------------------------------------------------------ -/

/-- C6: the timer tick decrements each timer by exactly 1 when nonzero,
leaves a zero timer at zero, and is a complete no-op (state unchanged)
while awaiting a key. -/
theorem update_timers_spec (c : Cpu) :
    (c.waiting_for_input = false →
      (0 < c.delay_timer_register →
        (update_timers c).1.delay_timer_register = c.delay_timer_register - 1) ∧
      (c.delay_timer_register = 0 → (update_timers c).1.delay_timer_register = 0) ∧
      (0 < c.sound_timer_register →
        (update_timers c).1.sound_timer_register = c.sound_timer_register - 1) ∧
      (c.sound_timer_register = 0 → (update_timers c).1.sound_timer_register = 0)) ∧
    (c.waiting_for_input = true → (update_timers c).1 = c) := by
  constructor
  · intro hw
    refine ⟨?_, ?_, ?_, ?_⟩ <;> intro h <;>
      simp only [update_timers, hw, if_true, reduceIte] <;>
      split_ifs <;> simp_all
  · intro hw
    simp [update_timers, hw]

/-- C6 witness: at delay timer 3, sound timer 0, not waiting, the tick
yields delay timer 2 and sound timer 0. -/
theorem update_timers_spec_witness :
    (update_timers cpuC6).1.delay_timer_register = 3 - 1 ∧
    (update_timers cpuC6).1.sound_timer_register = 0 :=
  ⟨((update_timers_spec cpuC6).1 rfl).1 (by decide),
   ((update_timers_spec cpuC6).1 rfl).2.2.2 rfl⟩

/- ------------------------------------------------------------------ -/
/- C4                                                                  -/
/- ------------------------------------------------------------------ -/

/-- C4: loading an image of exactly 4096 - 0x200 = 3584 bytes succeeds
and places the bytes from address 0x200 on; an image one byte larger
fails with the size error and leaves every memory byte unmodified. -/
theorem memory_load_boundary (memory : Nat → Nat) (buf1 buf2 : List Nat)
    (h1 : buf1.length = 3584) (h2 : buf2.length = 3585) :
    (Memory.load memory buf1).2 = true ∧
    (∀ i, i < 3584 → (Memory.load memory buf1).1 (0x200 + i) = buf1.getD i 0) ∧
    (Memory.load memory buf2).2 = false ∧
    (Memory.load memory buf2).1 = memory := by
  unfold Memory.load RAM_SIZE
  rw [h1, h2]
  norm_num
  intro i hi h
  exact absurd h (by omega)

/-- C4 witness: the boundary behaviour at two concrete images of sizes
3584 and 3585. -/
theorem memory_load_boundary_witness :
    (Memory.load (fun _ => 0) (List.replicate 3584 7)).2 = true ∧
    (Memory.load (fun _ => 0) (List.replicate 3585 7)).2 = false := by
  have h := memory_load_boundary (fun _ => 0)
    (List.replicate 3584 7) (List.replicate 3585 7)
    (by rw [List.length_replicate]) (by rw [List.length_replicate])
  exact ⟨h.1, h.2.2.1⟩

/- ------------------------------------------------------------------ -/
/- C10                                                                 -/
/- ------------------------------------------------------------------ -/

/-- C10: Ex9E and ExA1 index the 16-entry keyboard with the full value
of Vx, unchecked: when Vx ≤ 0xF the lookup is in bounds and the result
is the specified conditional skip; when Vx ≥ 16 both handlers abort
(out-of-bounds index, `none`). -/
theorem keyboard_index_unchecked (c : Cpu) (x : Nat) (keyboard : Keyboard)
    (hlen : keyboard.length = 16) :
    (∀ h : c.v_registers x ≤ 15,
      op_ex9e c x keyboard =
        some (Pc.skip_if (keyboard.get ⟨c.v_registers x, by omega⟩ == 1)) ∧
      op_exa1 c x keyboard =
        some (Pc.skip_if (keyboard.get ⟨c.v_registers x, by omega⟩ == 0))) ∧
    (16 ≤ c.v_registers x →
      op_ex9e c x keyboard = none ∧ op_exa1 c x keyboard = none) := by
  constructor
  · intro h
    have hlt : c.v_registers x < keyboard.length := by omega
    rw [op_ex9e, op_exa1, List.get?_eq_get hlt]
    exact ⟨rfl, rfl⟩
  · intro h
    have hnone : keyboard.get? (c.v_registers x) = none :=
      List.get?_eq_none.mpr (by omega)
    rw [op_ex9e, op_exa1, hnone]
    exact ⟨rfl, rfl⟩

/-- C10 witness: with V0 = 20 and a 16-entry keyboard both skip handlers
abort. -/
theorem keyboard_index_unchecked_witness :
    op_ex9e cpuC10 0 (List.replicate 16 0) = none ∧
    op_exa1 cpuC10 0 (List.replicate 16 0) = none :=
  (keyboard_index_unchecked cpuC10 0 (List.replicate 16 0) (by simp)).2 (by decide)

/- ------------------------------------------------------------------ -/
/- C2                                                                  -/
/- ------------------------------------------------------------------ -/

/-- C2 counterexample: from sound timer 1 with the beeping flag set (the
state a cycle run at ST = 1 leaves), the timer tick drops ST to 0 but
leaves the beeping flag true, so after this tick the exposed boolean
does not equal (ST > 0): `update_timers` never refreshes the flag. -/
theorem update_timers_beeping_stale :
    ((update_timers cpuC2).1).beeping = true ∧
    ((update_timers cpuC2).1).sound_timer_register = 0 ∧
    ((update_timers cpuC2).1).beeping ≠
      decide (0 < ((update_timers cpuC2).1).sound_timer_register) := by
  decide

/-- The execute-and-refresh-beeping tail of `do_cycle`: whatever the
executed instruction did, the refreshed flag equals (ST > 0). -/
theorem beep_after_exec {rand : Nat} {c0 : Cpu} {m : Mem} {kb : Keyboard}
    {c' : Cpu} {m' : Mem}
    (h : (match execute_opcode rand c0 m kb with
          | none => none
          | some (c2, m2) =>
              some ((if 0 < c2.sound_timer_register
                     then { c2 with beeping := true }
                     else { c2 with beeping := false }), m2)) = some (c', m')) :
    (c'.beeping = true ↔ 0 < c'.sound_timer_register) := by
  cases hexec : execute_opcode rand c0 m kb with
  | none => rw [hexec] at h; cases h
  | some r =>
      obtain ⟨c2, m2⟩ := r
      rw [hexec] at h
      have h' : some ((if 0 < c2.sound_timer_register
                       then { c2 with beeping := true }
                       else { c2 with beeping := false }), m2) = some (c', m') := h
      simp only [Option.some.injEq, Prod.mk.injEq] at h'
      obtain ⟨rfl, rfl⟩ := h'
      by_cases hst : 0 < c2.sound_timer_register
      · rw [if_pos hst]
        simpa using hst
      · rw [if_neg hst]
        simpa using hst

/-- C2 amended: after every interpreter cycle that actually executes an
instruction (i.e. the cpu was not left parked on the input-wait latch
with no key pressed), the beeping flag equals (sound timer > 0); the
timer tick, by contrast, never modifies the flag, which is why the
original claim fails after a tick. -/
theorem cycle_beeping_tracks_sound_timer (rand : Nat) (c : Cpu) (m : Mem)
    (keyboard : Keyboard) (c' : Cpu) (m' : Mem)
    (hrun : c.waiting_for_input = false ∨ keyboard.any (fun k => k == 1) = true)
    (h : do_cycle rand c m keyboard = some (c', m')) :
    (c'.beeping = true ↔ 0 < c'.sound_timer_register) ∧
    ((update_timers c).1).beeping = c.beeping := by
  constructor
  · by_cases hw : c.waiting_for_input = true
    · have hany : keyboard.any (fun k => k == 1) = true := by
        rcases hrun with h' | h'
        · rw [hw] at h'; cases h'
        · exact h'
      simp only [do_cycle, hw, hany, and_self, if_true, wake_from_input,
        Bool.false_eq_true, reduceIte] at h
      exact beep_after_exec h
    · have hw' : c.waiting_for_input = false := by
        cases hwc : c.waiting_for_input
        · rfl
        · exact absurd hwc hw
      simp only [do_cycle, hw', Bool.false_eq_true, false_and, if_false,
        reduceIte] at h
      exact beep_after_exec h
  · by_cases hw : c.waiting_for_input = false
    · by_cases hd : 0 < c.delay_timer_register <;>
        by_cases hs : 0 < c.sound_timer_register <;>
        simp [update_timers, hw, hd, hs]
    · simp [update_timers, hw]

/-- The result of one cycle from the initial cpu on blank memory (used
by the C2 witness). -/
def cycleW : Cpu × Mem := (do_cycle 0 Cpu.new memW []).getD (Cpu.new, memW)

/-- C2 amended witness: the cycle from the initial state satisfies the
beeping / sound-timer equivalence. -/
theorem cycle_beeping_witness :
    cycleW.1.beeping = true ↔ 0 < cycleW.1.sound_timer_register :=
  (cycle_beeping_tracks_sound_timer 0 Cpu.new memW [] cycleW.1 cycleW.2
    (Or.inl rfl) rfl).1

/- ------------------------------------------------------------------ -/
/- C3                                                                  -/
/- ------------------------------------------------------------------ -/

/-- C3 counterexample: executing 8xy4 with x = 0xF (VF itself the
destination), Vx = Vy = 200: the sum 400 exceeds 255, yet VF ends as
400 mod 256 = 144, not 1 — the truncated sum overwrites the carry flag,
so the claim fails at register index x = 0xF. -/
theorem op_8xy4_vf_aliasing :
    ((op_8xy4 cpuC3 15 0).1).v_registers 15 = 144 ∧
    ((op_8xy4 cpuC3 15 0).1).v_registers 15 ≠ 1 := by
  decide

/-- C3 amended: for register indices x ≠ 0xF (y arbitrary, including
0xF), executing 8xy4 with Vx = a, Vy = b sets VF = 1 iff a + b > 255,
sets Vx = (a + b) mod 256, and the program counter advances by 2. -/
theorem op_8xy4_add_carry (c : Cpu) (x y a b : Nat) (hx : x < 16) (hy : y < 16)
    (hxF : x ≠ 15) (ha : c.v_registers x = a) (hb : c.v_registers y = b)
    (ha8 : a < 256) (hb8 : b < 256) :
    ((op_8xy4 c x y).1).v_registers 15 = (if 255 < a + b then 1 else 0) ∧
    ((op_8xy4 c x y).1).v_registers x = (a + b) % 256 ∧
    (applyPc (op_8xy4 c x y).1 (op_8xy4 c x y).2).pc = c.pc + 2 := by
  have hne : (15 : Nat) ≠ x := fun h => hxF h.symm
  refine ⟨?_, ?_, ?_⟩
  · simp [op_8xy4, setV, ha, hb, if_neg hne]
  · simp [op_8xy4, setV, ha, hb]
  · simp [op_8xy4, setV, applyPc, OPCODE_SIZE]

/-- C3 amended witness: at x = 0, y = 1, V0 = V1 = 200 the carry is set
and V0 = 144. -/
theorem op_8xy4_add_carry_witness :
    ((op_8xy4 cpuC3 0 1).1).v_registers 15 = 1 ∧
    ((op_8xy4 cpuC3 0 1).1).v_registers 0 = 144 := by
  have h := op_8xy4_add_carry cpuC3 0 1 200 200 (by decide) (by decide)
    (by decide) rfl rfl (by decide) (by decide)
  exact ⟨by rw [h.1]; decide, by rw [h.2.1]⟩

/- ------------------------------------------------------------------ -/
/- C7                                                                  -/
/- ------------------------------------------------------------------ -/

/-- C7: from any cpu whose stack holds fewer than 16 entries (and whose
pc + 2 fits the u16 the source stores return addresses in — every
fetchable pc does, the memory being 4096 bytes), executing 2nnn and
then immediately executing 00EE sets pc to exactly (call-site pc) + 2
and restores the stack depth. -/
theorem call_then_ret_restores_pc (c : Cpu) (nnn : Nat)
    (hsp : c.stack.stack_pointer < 16) (hpc : c.pc + 2 < 65536) :
    ∃ r1 r2,
      op_2nnn c nnn = some r1 ∧
      op_00ee (applyPc r1.1 r1.2) = some r2 ∧
      (applyPc r2.1 r2.2).pc = c.pc + 2 ∧
      (applyPc r2.1 r2.2).stack.stack_pointer = c.stack.stack_pointer := by
  have hmod : (c.pc + OPCODE_SIZE) % 65536 = c.pc + 2 := by
    unfold OPCODE_SIZE
    exact Nat.mod_eq_of_lt hpc
  rw [op_2nnn, Stack.push,
    if_neg (show ¬ STACK_SIZE ≤ c.stack.stack_pointer by unfold STACK_SIZE; omega)]
  refine ⟨_, _, rfl, rfl, ?_, ?_⟩
  · simp [applyPc, Stack.top, Nat.add_sub_cancel, hmod]
  · simp [applyPc, Nat.add_sub_cancel]

/-- C7 witness: from the freshly initialized cpu (empty stack,
pc = 0x200) calling 0x300 and returning. -/
theorem call_then_ret_witness :
    ∃ r1 r2,
      op_2nnn Cpu.new 768 = some r1 ∧
      op_00ee (applyPc r1.1 r1.2) = some r2 ∧
      (applyPc r2.1 r2.2).pc = Cpu.new.pc + 2 ∧
      (applyPc r2.1 r2.2).stack.stack_pointer = Cpu.new.stack.stack_pointer :=
  call_then_ret_restores_pc Cpu.new 768 (by decide) (by decide)

/- ------------------------------------------------------------------ -/
/- C5                                                                  -/
/- ------------------------------------------------------------------ -/

/-- C5: one cycle in the AWAITING_KEY state.  With no key pressed the
cycle returns every part of the state unchanged (nothing is fetched or
executed, the latch persists).  With at least one key pressed, the cycle
equals a normal cycle of the woken state: the latch is cleared and the
lowest-indexed pressed key (the first index holding 1, with every
earlier index not pressed) is written to the latched target register. -/
theorem do_cycle_awaiting_key (rand : Nat) (c : Cpu) (m : Mem)
    (keyboard : Keyboard) (hw : c.waiting_for_input = true) :
    (keyboard.any (fun k => k == 1) = false →
      do_cycle rand c m keyboard = some (c, m)) ∧
    (keyboard.any (fun k => k == 1) = true →
      do_cycle rand c m keyboard =
        do_cycle rand (wake_from_input c keyboard) m keyboard ∧
      (wake_from_input c keyboard).waiting_for_input = false ∧
      (∃ hlt : keyboard.findIdx (fun k => k == 1) < keyboard.length,
        keyboard.get ⟨keyboard.findIdx (fun k => k == 1), hlt⟩ = 1 ∧
        ∀ j (hj : j < keyboard.length), j < keyboard.findIdx (fun k => k == 1) →
          keyboard.get ⟨j, hj⟩ ≠ 1) ∧
      (wake_from_input c keyboard).v_registers c.input_register =
        keyboard.findIdx (fun k => k == 1)) := by
  constructor
  · intro hno
    simp [do_cycle, hw, hno]
  · intro hyes
    have hlt : keyboard.findIdx (fun k => k == 1) < keyboard.length :=
      List.findIdx_lt_length_of_exists (by simpa using List.any_eq_true.mp hyes)
    refine ⟨?_, rfl, ⟨hlt, ?_, ?_⟩, ?_⟩
    · simp [do_cycle, hw, hyes, wake_from_input]
    · have hget : ((keyboard.get ⟨keyboard.findIdx (fun k => k == 1), hlt⟩) == 1) = true :=
        @List.findIdx_getElem _ _ _ hlt
      simpa using hget
    · intro j hj hjlt hcontra
      have hfalse : ((keyboard.get ⟨j, hj⟩) == 1) = false :=
        List.not_of_lt_findIdx hjlt
      rw [hcontra] at hfalse
      simp at hfalse
    · simp [wake_from_input, setV]

/-- C5 witness: a waiting cpu with target register 3; with no key
pressed the cycle is the identity, and waking on the concrete keyboard
whose first pressed key is 2 writes 2 into V3. -/
theorem do_cycle_awaiting_key_witness :
    do_cycle 0 cpuC5 memW (List.replicate 16 0) = some (cpuC5, memW) ∧
    (wake_from_input cpuC5 kbC5).v_registers 3 = 2 := by
  have h1 := (do_cycle_awaiting_key 0 cpuC5 memW (List.replicate 16 0) rfl).1
    (by decide)
  have h2 := (do_cycle_awaiting_key 0 cpuC5 memW kbC5 rfl).2 (by decide)
  refine ⟨h1, ?_⟩
  have h3 := h2.2.2.2
  rw [show cpuC5.input_register = 3 from rfl] at h3
  rw [h3]
  decide

/- ------------------------------------------------------------------ -/
/- C9                                                                  -/
/- ------------------------------------------------------------------ -/

/-- The Display Buffer invariant: every cell holds 0 or 1. -/
def DispOk (d : Disp) : Prop := ∀ a b, d a b ≤ 1

theorem xor_le_one {a p : Nat} (ha : a ≤ 1) (hp : p ≤ 1) : a ^^^ p ≤ 1 := by
  interval_cases a <;> interval_cases p <;> decide

theorem foldl_preserves {α : Type} {β : Type} (P : α → Prop) (f : α → β → α)
    (l : List β) (hf : ∀ s i, P s → P (f s i)) :
    ∀ s, P s → P (l.foldl f s) := by
  induction l with
  | nil => exact fun _ h => h
  | cons i l ih => exact fun s h => ih _ (hf _ _ h)

theorem drawBit_dispOk (mm : Nat → Nat) (x ypos byte : Nat) (s : Cpu × Disp)
    (bit : Nat) (h : DispOk s.2) : DispOk (drawBit mm x ypos byte s bit).2 := by
  intro a b
  simp only [drawBit]
  split
  · exact xor_le_one (h _ _) Nat.and_le_right
  · exact h a b

theorem drawByte_dispOk (mm : Nat → Nat) (x y : Nat) (s : Cpu × Disp)
    (byte : Nat) (h : DispOk s.2) : DispOk (drawByte mm x y s byte).2 := by
  simp only [drawByte]
  exact foldl_preserves (fun t => DispOk t.2) _ _
    (fun t i ht => drawBit_dispOk _ _ _ _ t i ht) s h

theorem op_dxyn_dispOk (c : Cpu) (x y n : Nat) (m : Mem) (h : DispOk m.display) :
    DispOk ((op_dxyn c x y n m).1.2).display := by
  simp only [op_dxyn]
  exact foldl_preserves (fun t => DispOk t.2) (drawByte m.memory x y)
    (List.range n) (fun t i ht => drawByte_dispOk m.memory x y t i ht)
    (setV c 15 0, m.display) h

theorem op_fx33_display (c : Cpu) (x : Nat) (m : Mem) :
    ((op_fx33 c x m).1).display = m.display := rfl

theorem op_fx55_display (c : Cpu) (x : Nat) (m : Mem) :
    ((op_fx55 c x m).1).display = m.display := by
  simp only [op_fx55]
  generalize List.range (x + 1) = l
  induction l generalizing m with
  | nil => rfl
  | cons i l ih => rw [List.foldl_cons, ih]; rfl

theorem dispatch0_dispOk (c : Cpu) (m : Mem) (s2 s3 s4 : Nat)
    (r : (Cpu × Mem) × Pc) (hd : DispOk m.display)
    (h : dispatch0 c m s2 s3 s4 = some r) : DispOk r.1.2.display := by
  unfold dispatch0 at h
  repeat' split at h
  all_goals
    first
      | (rw [Option.some.injEq] at h; subst h; exact hd)
      | (rw [Option.some.injEq] at h; subst h;
         intro a b; simp [op_00e0, Display.clear])
      | (simp only [Option.map_eq_some'] at h; obtain ⟨v, hv, rfl⟩ := h;
         exact hd)

theorem dispatch8_dispOk (c : Cpu) (m : Mem) (x y s4 : Nat)
    (r : (Cpu × Mem) × Pc) (hd : DispOk m.display)
    (h : dispatch8 c m x y s4 = some r) : DispOk r.1.2.display := by
  unfold dispatch8 at h
  repeat' split at h
  all_goals (rw [Option.some.injEq] at h; subst h; exact hd)

theorem dispatchE_dispOk (c : Cpu) (m : Mem) (keyboard : Keyboard)
    (x s3 s4 : Nat) (r : (Cpu × Mem) × Pc) (hd : DispOk m.display)
    (h : dispatchE c m keyboard x s3 s4 = some r) : DispOk r.1.2.display := by
  unfold dispatchE at h
  repeat' split at h
  all_goals
    first
      | (rw [Option.some.injEq] at h; subst h; exact hd)
      | (simp only [Option.map_eq_some'] at h; obtain ⟨v, hv, rfl⟩ := h;
         exact hd)

theorem dispatchF_dispOk (c : Cpu) (m : Mem) (x s3 s4 : Nat)
    (r : (Cpu × Mem) × Pc) (hd : DispOk m.display)
    (h : dispatchF c m x s3 s4 = some r) : DispOk r.1.2.display := by
  unfold dispatchF at h
  repeat' split at h
  all_goals
    first
      | (rw [Option.some.injEq] at h; subst h;
         rw [op_fx33_display]; exact hd)
      | (rw [Option.some.injEq] at h; subst h;
         rw [op_fx55_display]; exact hd)
      | (rw [Option.some.injEq] at h; subst h; exact hd)

theorem execDispatchHigh_dispOk (rand : Nat) (c : Cpu) (m : Mem)
    (keyboard : Keyboard) (s1 s3 s4 nnn kk x y n : Nat)
    (r : (Cpu × Mem) × Pc) (hd : DispOk m.display)
    (h : execDispatchHigh rand c m keyboard s1 s3 s4 nnn kk x y n = some r) :
    DispOk r.1.2.display := by
  unfold execDispatchHigh at h
  repeat' split at h
  all_goals
    first
      | (exact dispatch8_dispOk _ _ _ _ _ _ hd h)
      | (exact dispatchE_dispOk _ _ _ _ _ _ _ hd h)
      | (exact dispatchF_dispOk _ _ _ _ _ _ hd h)
      | (rw [Option.some.injEq] at h; subst h;
         exact op_dxyn_dispOk _ _ _ _ _ hd)
      | (rw [Option.some.injEq] at h; subst h; exact hd)

/-- Every dispatch branch either leaves the display untouched, clears
it, or xor-plots single-bit pixels into it, so the 0/1 cell invariant
is preserved. -/
theorem execDispatch_dispOk (rand : Nat) (c : Cpu) (m : Mem)
    (keyboard : Keyboard) (s1 s2 s3 s4 nnn kk x y n : Nat)
    (r : (Cpu × Mem) × Pc) (hd : DispOk m.display)
    (h : execDispatch rand c m keyboard s1 s2 s3 s4 nnn kk x y n = some r) :
    DispOk r.1.2.display := by
  unfold execDispatch at h
  repeat' split at h
  all_goals
    first
      | (exact dispatch0_dispOk _ _ _ _ _ _ hd h)
      | (exact execDispatchHigh_dispOk _ _ _ _ _ _ _ _ _ _ _ _ _ hd h)
      | (rw [Option.some.injEq] at h; subst h; exact hd)
      | (simp only [Option.map_eq_some'] at h; obtain ⟨v, hv, rfl⟩ := h;
         exact hd)

/-- C9: every Display Buffer cell holds exactly 0 or 1: true of the
fresh buffer, preserved by clear, and preserved by executing any
instruction (in particular 00E0 and Dxyn, the only two that write the
display). -/
theorem display_cells_binary :
    DispOk Display.new ∧
    (∀ d, DispOk (Display.clear d)) ∧
    (∀ rand c m keyboard r, DispOk m.display →
      execute_opcode rand c m keyboard = some r → DispOk r.2.display) := by
  refine ⟨fun _ _ => Nat.zero_le 1, fun _ _ _ => Nat.zero_le 1, ?_⟩
  intro rand c m keyboard r hd h
  simp only [execute_opcode] at h
  cases hdis : execDispatch rand c m keyboard ((c.opcode &&& 0xF000) >>> 12)
      ((c.opcode &&& 0x0F00) >>> 8) ((c.opcode &&& 0x00F0) >>> 4)
      (c.opcode &&& 0x000F) (c.opcode &&& 0x0FFF) (c.opcode &&& 0x00FF)
      ((c.opcode &&& 0x0F00) >>> 8) ((c.opcode &&& 0x00F0) >>> 4)
      (c.opcode &&& 0x000F) with
  | none => rw [hdis] at h; cases h
  | some v =>
      rw [hdis] at h
      have h' : some (applyPc v.1.1 v.2, v.1.2) = some r := h
      rw [Option.some.injEq] at h'
      subst h'
      exact execDispatch_dispOk rand c m keyboard _ _ _ _ _ _ _ _ _ v hd hdis

/-- The result of executing the (unmatched, hence no-op) opcode latched
in the fresh cpu (used by the C9 witness). -/
def execW : Cpu × Mem := (execute_opcode 0 Cpu.new memW []).getD (Cpu.new, memW)

/-- C9 witness: the invariant after a concrete instruction execution
from a blank display. -/
theorem display_cells_binary_witness :
    execute_opcode 0 Cpu.new memW [] = some execW ∧ DispOk execW.2.display :=
  ⟨rfl, display_cells_binary.2.2 0 Cpu.new memW [] execW
    (fun _ _ => Nat.zero_le 1) rfl⟩

/- ------------------------------------------------------------------ -/
/- C8                                                                  -/
/- ------------------------------------------------------------------ -/

/-- Pointwise XOR of a display with a delta. -/
def pointXor (d f : Disp) : Disp := fun a b => d a b ^^^ f a b

/-- The all-zero delta. -/
def zeroDisp : Disp := fun _ _ => 0

theorem pointXor_zero (d : Disp) : pointXor d zeroDisp = d := by
  funext a b
  simp [pointXor, zeroDisp]

theorem pointXor_right_comm (d f g : Disp) :
    pointXor (pointXor d f) g = pointXor (pointXor d g) f := by
  funext a b
  simp only [pointXor]
  rw [Nat.xor_assoc, Nat.xor_comm (f a b), ← Nat.xor_assoc]

theorem pointXor_cancel (d f : Disp) : pointXor (pointXor d f) f = d := by
  funext a b
  simp only [pointXor]
  rw [Nat.xor_assoc, Nat.xor_self, Nat.xor_zero]

/-- A fold of pointwise-XOR steps commutes with XOR-ing the seed. -/
theorem foldl_pointXor_shift (dl : Nat → Disp) (step : Disp → Nat → Disp)
    (hstep : ∀ d i, step d i = pointXor d (dl i)) (l : List Nat) :
    ∀ d g, l.foldl step (pointXor d g) = pointXor (l.foldl step d) g := by
  induction l with
  | nil => intro d g; rfl
  | cons i l ih =>
      intro d g
      simp only [List.foldl_cons, hstep]
      rw [pointXor_right_comm]
      exact ih _ _

/-- A fold of pointwise-XOR steps is one pointwise XOR with the
combination of the deltas. -/
theorem foldl_pointXor_total (dl : Nat → Disp) (step : Disp → Nat → Disp)
    (hstep : ∀ d i, step d i = pointXor d (dl i)) (l : List Nat) :
    ∀ d, l.foldl step d =
      pointXor d (l.foldl (fun f i => pointXor f (dl i)) zeroDisp) := by
  induction l with
  | nil => intro d; exact (pointXor_zero d).symm
  | cons i l ih =>
      intro d
      simp only [List.foldl_cons, hstep]
      rw [ih (pointXor d (dl i)),
        foldl_pointXor_shift dl (fun f i => pointXor f (dl i))
          (fun _ _ => rfl) l zeroDisp (dl i)]
      funext a b
      simp only [pointXor]
      rw [Nat.xor_assoc, Nat.xor_comm (dl i a b)]

/-- The display transform of one plotted sprite bit (the pure-display
content of `drawBit`). -/
def plotBit (mm : Nat → Nat) (iReg vx ypos byte : Nat) (d : Disp)
    (bit : Nat) : Disp :=
  fun a b =>
    if a = ((vx + bit) % 256) % DISPLAY_WIDTH ∧ b = ypos
    then d a b ^^^ ((mm (iReg + byte) >>> (7 - bit)) &&& 1)
    else d a b

/-- The single-cell delta of one plotted bit. -/
def bitDelta (mm : Nat → Nat) (iReg vx ypos byte bit : Nat) : Disp :=
  fun a b =>
    if a = ((vx + bit) % 256) % DISPLAY_WIDTH ∧ b = ypos
    then (mm (iReg + byte) >>> (7 - bit)) &&& 1
    else 0

theorem plotBit_pointXor (mm : Nat → Nat) (iReg vx ypos byte : Nat)
    (d : Disp) (bit : Nat) :
    plotBit mm iReg vx ypos byte d bit =
      pointXor d (bitDelta mm iReg vx ypos byte bit) := by
  funext a b
  simp only [plotBit, pointXor, bitDelta]
  split
  · rfl
  · exact (Nat.xor_zero _).symm

/-- The display transform of one plotted sprite row. -/
def plotByte (mm : Nat → Nat) (iReg vx vy : Nat) (d : Disp) (byte : Nat) :
    Disp :=
  (List.range 8).foldl
    (plotBit mm iReg vx (((vy + byte) % 256) % DISPLAY_HEIGHT) byte) d

/-- The combined delta of one plotted sprite row. -/
def rowDelta (mm : Nat → Nat) (iReg vx vy byte : Nat) : Disp :=
  (List.range 8).foldl
    (fun f bit =>
      pointXor f (bitDelta mm iReg vx (((vy + byte) % 256) % DISPLAY_HEIGHT)
        byte bit))
    zeroDisp

theorem plotByte_pointXor (mm : Nat → Nat) (iReg vx vy : Nat) (d : Disp)
    (byte : Nat) :
    plotByte mm iReg vx vy d byte = pointXor d (rowDelta mm iReg vx vy byte) := by
  unfold plotByte rowDelta
  exact foldl_pointXor_total _ _
    (fun d bit => plotBit_pointXor mm iReg vx _ byte d bit) _ d

/-- The display transform of a whole sprite draw. -/
def plotSprite (mm : Nat → Nat) (iReg vx vy n : Nat) (d : Disp) : Disp :=
  (List.range n).foldl (plotByte mm iReg vx vy) d

theorem plotSprite_involutive (mm : Nat → Nat) (iReg vx vy n : Nat)
    (d : Disp) :
    plotSprite mm iReg vx vy n (plotSprite mm iReg vx vy n d) = d := by
  unfold plotSprite
  rw [foldl_pointXor_total (rowDelta mm iReg vx vy) _
      (fun d byte => plotByte_pointXor mm iReg vx vy d byte) (List.range n) d,
    foldl_pointXor_total (rowDelta mm iReg vx vy) _
      (fun d byte => plotByte_pointXor mm iReg vx vy d byte) (List.range n)
      (pointXor d _)]
  exact pointXor_cancel _ _

/-- As long as x is not the flags register, the bit loop of a sprite row
only writes VF on the cpu side, and its display side is the pure
`plotBit` fold at the loop's entry parameters. -/
theorem drawBit_fold_spec (mm : Nat → Nat) (x ypos byte : Nat) (hx : x ≠ 15)
    (l : List Nat) :
    ∀ (c : Cpu) (d : Disp),
      (∀ j, j ≠ 15 →
        ((l.foldl (drawBit mm x ypos byte) (c, d)).1).v_registers j =
          c.v_registers j) ∧
      ((l.foldl (drawBit mm x ypos byte) (c, d)).1).i_register =
        c.i_register ∧
      (l.foldl (drawBit mm x ypos byte) (c, d)).2 =
        l.foldl (plotBit mm c.i_register (c.v_registers x) ypos byte) d := by
  induction l with
  | nil => intro c d; exact ⟨fun _ _ => rfl, rfl, rfl⟩
  | cons bit l ih =>
      intro c d
      simp only [List.foldl_cons]
      obtain ⟨ih1, ih2, ih3⟩ := ih (drawBit mm x ypos byte (c, d) bit).1
        (drawBit mm x ypos byte (c, d) bit).2
      refine ⟨?_, ?_, ?_⟩
      · intro j hj
        rw [ih1 j hj]
        simp [drawBit, setV, hj]
      · rw [ih2]
        rfl
      · rw [ih3]
        have h1 : (drawBit mm x ypos byte (c, d) bit).1.i_register =
            c.i_register := rfl
        have h2 : (drawBit mm x ypos byte (c, d) bit).1.v_registers x =
            c.v_registers x := by
          simp [drawBit, setV, hx]
        rw [h1, h2]
        rfl

/-- Unfolding lemma: one sprite row of the draw is the bit fold at the
row position computed from the current Vy. -/
theorem drawByte_eq (mm : Nat → Nat) (x y byte : Nat) (c : Cpu) (d : Disp) :
    drawByte mm x y (c, d) byte =
      (List.range 8).foldl
        (drawBit mm x (((c.v_registers y + byte) % 256) % DISPLAY_HEIGHT) byte)
        (c, d) := rfl

/-- Unfolding lemma: one plotted row is the bit fold at the row
position. -/
theorem plotByte_eq (mm : Nat → Nat) (iReg vx vy : Nat) (d : Disp)
    (byte : Nat) :
    plotByte mm iReg vx vy d byte =
      (List.range 8).foldl
        (plotBit mm iReg vx (((vy + byte) % 256) % DISPLAY_HEIGHT) byte)
        d := rfl

/-- As long as neither x nor y is the flags register, the row loop of a
sprite draw only writes VF on the cpu side, and its display side is the
pure `plotByte` fold at the loop's entry registers. -/
theorem drawByte_fold_spec (mm : Nat → Nat) (x y : Nat) (hx : x ≠ 15)
    (hy : y ≠ 15) (l : List Nat) :
    ∀ (c : Cpu) (d : Disp),
      (∀ j, j ≠ 15 →
        ((l.foldl (drawByte mm x y) (c, d)).1).v_registers j =
          c.v_registers j) ∧
      ((l.foldl (drawByte mm x y) (c, d)).1).i_register = c.i_register ∧
      (l.foldl (drawByte mm x y) (c, d)).2 =
        l.foldl (plotByte mm c.i_register (c.v_registers x) (c.v_registers y))
          d := by
  induction l with
  | nil => intro c d; exact ⟨fun _ _ => rfl, rfl, rfl⟩
  | cons byte l ih =>
      intro c d
      simp only [List.foldl_cons]
      rw [drawByte_eq]
      obtain ⟨b1, b2, b3⟩ := drawBit_fold_spec mm x
        (((c.v_registers y + byte) % 256) % DISPLAY_HEIGHT) byte hx
        (List.range 8) c d
      obtain ⟨ih1, ih2, ih3⟩ := ih
        ((List.range 8).foldl
          (drawBit mm x (((c.v_registers y + byte) % 256) % DISPLAY_HEIGHT)
            byte) (c, d)).1
        ((List.range 8).foldl
          (drawBit mm x (((c.v_registers y + byte) % 256) % DISPLAY_HEIGHT)
            byte) (c, d)).2
      refine ⟨?_, ?_, ?_⟩
      · intro j hj
        exact (ih1 j hj).trans (b1 j hj)
      · exact ih2.trans b2
      · refine ih3.trans ?_
        rw [b2, b1 x hx, b1 y hy, b3, plotByte_eq]

/-- The sprite-draw instruction characterized: when x, y ≠ 0xF its
display effect is the pure `plotSprite` transform, it leaves the memory
bytes, the index register and every register but VF unchanged. -/
theorem op_dxyn_spec (c : Cpu) (x y n : Nat) (m : Mem) (hx : x ≠ 15)
    (hy : y ≠ 15) :
    ((op_dxyn c x y n m).1.2).display =
      plotSprite m.memory c.i_register (c.v_registers x) (c.v_registers y) n
        m.display ∧
    ((op_dxyn c x y n m).1.1).i_register = c.i_register ∧
    (∀ j, j ≠ 15 →
      ((op_dxyn c x y n m).1.1).v_registers j = c.v_registers j) ∧
    ((op_dxyn c x y n m).1.2).memory = m.memory := by
  obtain ⟨h1, h2, h3⟩ := drawByte_fold_spec m.memory x y hx hy (List.range n)
    (setV c 15 0) m.display
  have e1 : (setV c 15 0).i_register = c.i_register := rfl
  have e2 : (setV c 15 0).v_registers x = c.v_registers x := by
    simp [setV, hx]
  have e3 : (setV c 15 0).v_registers y = c.v_registers y := by
    simp [setV, hy]
  refine ⟨?_, ?_, ?_, rfl⟩
  · have hdisp : ((op_dxyn c x y n m).1.2).display =
        ((List.range n).foldl (drawByte m.memory x y)
          (setV c 15 0, m.display)).2 := rfl
    rw [hdisp, h3, e1, e2, e3]
    rfl
  · have hi : ((op_dxyn c x y n m).1.1).i_register =
        ((List.range n).foldl (drawByte m.memory x y)
          (setV c 15 0, m.display)).1.i_register := rfl
    rw [hi, h2]
    exact e1
  · intro j hj
    have hv : ((op_dxyn c x y n m).1.1).v_registers j =
        ((List.range n).foldl (drawByte m.memory x y)
          (setV c 15 0, m.display)).1.v_registers j := rfl
    rw [hv, h1 j hj]
    simp [setV, hj]

/-- C8 counterexample: with x = 0xF the draw position is read from the
flags register, which the draw itself mutates; drawing the two-bit
sprite row 0xC0 twice at (VF, V0) from a blank display leaves cell
(2, 0) set, so the Display Buffer is not restored and the claim fails
at register index x = 0xF. -/
theorem dxyn_twice_x15_not_restored :
    (((op_dxyn (op_dxyn Cpu.new 15 0 1 memC8).1.1 15 0 1
        (op_dxyn Cpu.new 15 0 1 memC8).1.2).1.2)).display 2 0 = 1 ∧
    memC8.display 2 0 = 0 := by
  decide

/-- C8 amended: for register indices x ≠ 0xF and y ≠ 0xF (so that the
sprite position is not aliased with the collision flag the draw
mutates), drawing the same n-byte sprite twice in succession at the
same position, with the sprite bytes unchanged between the draws (the
draw never writes memory bytes), restores the Display Buffer exactly. -/
theorem dxyn_twice_restores_display (c : Cpu) (m : Mem) (x y n : Nat)
    (hx : x ≠ 15) (hy : y ≠ 15) :
    (((op_dxyn (op_dxyn c x y n m).1.1 x y n
        (op_dxyn c x y n m).1.2).1.2)).display = m.display := by
  obtain ⟨d1, i1, v1, mm1⟩ := op_dxyn_spec c x y n m hx hy
  obtain ⟨d2, _i2, _v2, _mm2⟩ := op_dxyn_spec (op_dxyn c x y n m).1.1 x y n
    (op_dxyn c x y n m).1.2 hx hy
  rw [d2, mm1, i1, v1 x hx, v1 y hy, d1]
  exact plotSprite_involutive _ _ _ _ _ _

/-- C8 amended witness: a concrete double draw at x = 0, y = 1 on the
0xC0 sprite restores the blank display. -/
theorem dxyn_twice_restores_display_witness :
    (((op_dxyn (op_dxyn Cpu.new 0 1 1 memC8).1.1 0 1 1
        (op_dxyn Cpu.new 0 1 1 memC8).1.2).1.2)).display = memC8.display :=
  dxyn_twice_restores_display Cpu.new memC8 0 1 1 (by decide) (by decide)
